import Mathlib

/-!
Verification development for the client-side cache layer of the
kevin-ngo-website repository: a shallow embedding of
`src/js/cache-manager.js` (the localStorage-backed `CacheManager` class)
and of the `fetchYearData` orchestrator methods of the `GitHubActivity`
component variants, together with theorems settling the specified
properties.
-/

set_option autoImplicit false

namespace KevinNgoSite

/-- Model of the JavaScript values that flow through the cache layer:
`undefined` is JS `undefined` (also standing for a missing object field),
`null` is JS `null`, and the remaining constructors cover the
JSON-serializable values the component stores (numbers are modelled as
integers; every number the code stores or compares is an integer number
of milliseconds or a count). -/
inductive JVal where
  | undefined
  | null
  | bool (b : Bool)
  | num (n : Int)
  | str (s : String)
  | arr (elems : List JVal)
  | obj (fields : List (String × JVal))

/-- JS truthiness of a value, as used by `if (cached)`-style tests in the
source. `undefined`, `null`, `false`, `0` and `""` are falsy; objects and
arrays are always truthy. (`NaN` is not representable in this model.) -/
def JVal.truthy : JVal → Bool
  | .undefined => false
  | .null => false
  | .bool b => b
  | .num n => decide (n ≠ 0)
  | .str s => decide (s ≠ "")
  | .arr _ => true
  | .obj _ => true

/-- First binding of `key` in an object's field list, mirroring JS property
lookup (our object literals carry each key at most once). -/
def fieldLookup : List (String × JVal) → String → Option JVal
  | [], _ => none
  | (k, v) :: rest, key => if k = key then some v else fieldLookup rest key

/-- Property access `v.name` in JS: on objects the field's value (or
`undefined` when absent); on primitives `undefined`. Access on `null`
or `undefined` throws in JS; call sites in the modelled code only access
fields after a truthiness guard, so those cases are unreachable and we
return `undefined` to keep the function total. -/
def JVal.getField (v : JVal) (name : String) : JVal :=
  match v with
  | .obj fs => (fieldLookup fs name).getD .undefined
  | _ => .undefined

/-- Is this value the JS `null` literal (a strict-equality test against
`null`). -/
def JVal.isNull : JVal → Bool
  | .null => true
  | _ => false

/-- JSON string escaping for one character, as produced by
`JSON.stringify` (payload strings in this codebase contain no control
characters, which are therefore left unescaped by the model). -/
def jsonEscape (c : Char) : String :=
  if c = '"' then "\\\"" else if c = '\\' then "\\\\" else String.singleton c

/-- A JSON string literal for `s`. -/
def jsonStr (s : String) : String :=
  "\"" ++ String.join (s.toList.map jsonEscape) ++ "\""

/-- Comma-separated concatenation, as in JSON array/object bodies. -/
def commaJoin : List String → String
  | [] => ""
  | [s] => s
  | s :: rest => s ++ "," ++ commaJoin rest

mutual

/-- Canonical `JSON.stringify` of a value: `undefined` serializes to
nothing (`none`), which `stringify` drops inside objects and renders as
`null` inside arrays, exactly as `JSON.stringify` does. -/
def JVal.stringify : JVal → Option String
  | .undefined => none
  | .null => some "null"
  | .bool b => some (if b then "true" else "false")
  | .num n => some (toString n)
  | .str s => some (jsonStr s)
  | .arr xs => some ("[" ++ commaJoin (stringifyElems xs) ++ "]")
  | .obj fs => some ("\x7b" ++ commaJoin (stringifyFields fs) ++ "\x7d")

/-- Serialization of array elements (`undefined` renders as `null`). -/
def stringifyElems : List JVal → List String
  | [] => []
  | v :: vs => (JVal.stringify v).getD "null" :: stringifyElems vs

/-- Serialization of object fields (`undefined`-valued fields dropped). -/
def stringifyFields : List (String × JVal) → List String
  | [] => []
  | (k, v) :: fs =>
    match JVal.stringify v with
    | none => stringifyFields fs
    | some sv => (jsonStr k ++ ":" ++ sv) :: stringifyFields fs

end

/-- A successfully parsed stored record, as consumed by
`CacheManager.get`/`clearExpired`/`getStats`: the `data` payload
(`undefined` when the field is missing), and the numeric `timestamp` and
`expires` fields (`none` models a missing field, so that the JS
comparison `now > cacheData.expires` is `NaN`-false). `set` always
writes all three fields; entries lacking them can only arise from
outside tampering with the substrate. Values whose `expires` field is
present but non-numeric are outside the model; no modelled code path
produces or needs them. -/
structure Entry where
  data : JVal
  timestamp : Option Int
  expires : Option Int

/-- One stored string value of the underlying localStorage substrate,
represented by its parse outcome: `malformed raw` is a string `raw` on
which `JSON.parse` throws (or which is JSON `null`, whose property
access throws the same caught `TypeError`), and `entry e` is a string
parsing to the record `e`. -/
inductive Cell where
  | malformed (raw : String)
  | entry (e : Entry)

/-- The raw stored string a cell stands for. For a parsed entry we use
the canonical serialization (the source only ever inspects the parse
result and the string's nonemptiness/length, so identifying equivalent
JSON spellings loses nothing the modelled code can observe). -/
def cellRaw : Cell → String
  | .malformed raw => raw
  | .entry e =>
    (JVal.stringify (.obj [("data", e.data),
       ("timestamp", match e.timestamp with | some t => .num t | none => .undefined),
       ("expires", match e.expires with | some t => .num t | none => .undefined)])).getD ""

/-- The localStorage substrate: the page's key/value pairs in storage
order. Keys are unique in an actual browser store; theorems that need
this assume `uniqKeys`. -/
abbrev Store := List (String × Cell)

/-- Keys of the substrate are pairwise distinct (guaranteed by the real
localStorage; stated as a hypothesis where a proof needs it). -/
def uniqKeys (s : Store) : Prop := (s.map Prod.fst).Nodup

instance uniqKeysDecidable (s : Store) : Decidable (uniqKeys s) :=
  inferInstanceAs (Decidable (s.map Prod.fst).Nodup)

/-- localStorage.getItem: the value stored under `key`, if any. -/
def getItem : Store → String → Option Cell
  | [], _ => none
  | (k, c) :: rest, key => if k = key then some c else getItem rest key

/-- localStorage.removeItem: delete every binding of `key`. -/
def removeItem : Store → String → Store
  | [], _ => []
  | (k, c) :: rest, key =>
    if k = key then removeItem rest key else (k, c) :: removeItem rest key

/-- localStorage.setItem: replace the binding of `key` in place, or
append a new binding at the end. -/
def setItem : Store → String → Cell → Store
  | [], key, v => [(key, v)]
  | (k, c) :: rest, key, v =>
    if k = key then (key, v) :: rest else (k, c) :: setItem rest key v

namespace CacheManager

/-- `this.CACHE_DURATION = 6 * 60 * 60 * 1000` (six hours in ms). -/
def CACHE_DURATION : Int := 6 * 60 * 60 * 1000

/-- `this.CACHE_PREFIX = 'github_activity_'`, the store's namespace
string (named `CACHE_NS` here). -/
def CACHE_NS : String := "github_activity_"

/-- `getCacheKey(key)`: the namespaced key. -/
def getCacheKey (key : String) : String := CACHE_NS ++ key

/-- `key.startsWith(this.CACHE_PREFIX)`: does a substrate key lie in the
cache's namespace? -/
def nsKey (key : String) : Bool := List.isPrefixOf CACHE_NS.toList key.toList

/-- The test `now > cacheData.expires` of `get`/`clearExpired`/`getStats`:
false when the `expires` field is missing, because comparing with
`undefined` yields `NaN` and every `NaN` comparison is false. -/
def entryExpired (now : Int) (e : Entry) : Bool :=
  match e.expires with
  | some t => decide (now > t)
  | none => false

/-- Does the body of the `clearExpired`/`getStats` scan classify this
cell as expired: a parse failure counts as expired (the `catch` marks it
for removal), otherwise the `now > expires` test decides. -/
def cellExpired (now : Int) : Cell → Bool
  | .malformed _ => true
  | .entry e => entryExpired now e

/-- Is a binding removed by `clearExpired`: it must be namespaced, its
stored string must be truthy (the `if (cached)` guard skips an empty
string), and the scan must classify it as expired. -/
def sweepDead (now : Int) (k : String) (c : Cell) : Bool :=
  nsKey k && decide (cellRaw c ≠ "") && cellExpired now c

/-- `clearExpired()`: one scan collecting the namespaced keys whose
entries are expired or unparsable, then removal of exactly those keys.
Collecting first and removing afterwards is, for a store with unique
keys, one filtering pass. The JS method body has no `return` statement,
so its caller receives `undefined` (see `clearExpiredCall`). -/
def clearExpired : Store → Int → Store
  | [], _ => []
  | (k, c) :: rest, now =>
    if sweepDead now k c then clearExpired rest now
    else (k, c) :: clearExpired rest now

/-- The full observable outcome of calling `clearExpired()`: the value
returned to the caller — `none`, i.e. JS `undefined`, since the function
never returns anything — together with the updated substrate. -/
def clearExpiredCall (s : Store) (now : Int) : Option Nat × Store :=
  (none, clearExpired s now)

/-- `clearAll()`: delete every namespaced key, expired or not. -/
def clearAll : Store → Store
  | [] => []
  | (k, c) :: rest => if nsKey k then clearAll rest else (k, c) :: clearAll rest

/-- `get(key)`: read the namespaced key; absent → `null`; parse failure →
the `catch` returns `null` leaving the store untouched; expired →
remove the key and return `null`; otherwise return the stored payload. -/
def get (s : Store) (now : Int) (key : String) : JVal × Store :=
  let cacheKey := getCacheKey key
  match getItem s cacheKey with
  | none => (.null, s)
  | some (.malformed _) => (.null, s)
  | some (.entry e) =>
    if entryExpired now e then (.null, removeItem s cacheKey)
    else (e.data, s)

/-- `set(key, data)`: write `{data, timestamp: now, expires: now + ttl}`
under the namespaced key and return `true`. `writeThrows` models the
underlying `localStorage.setItem` throwing (e.g. quota exceeded): the
`catch` then runs `clearExpired()` and returns `false`; the exception is
never propagated. -/
def set (s : Store) (now : Int) (writeThrows : Bool) (key : String)
    (data : JVal) : Bool × Store :=
  if writeThrows then
    (false, clearExpired s now)
  else
    (true, setItem s (getCacheKey key)
      (.entry { data := data, timestamp := some now,
                expires := some (now + CACHE_DURATION) }))

/-- `has(key)`: `this.get(key) !== null`. -/
def has (s : Store) (now : Int) (key : String) : Bool × Store :=
  let r := get s now key
  (!r.1.isNull, r.2)

/-- `remove(key)`: unconditional delete of the namespaced key. -/
def remove (s : Store) (key : String) : Store :=
  removeItem s (getCacheKey key)

/-- Result record of `getStats()`. -/
structure Stats where
  totalEntries : Nat
  expiredEntries : Nat
  validEntries : Nat
  totalSize : Nat
  cacheDurationHours : Int

/-- The scan loop of `getStats()`: over every namespaced key it counts
the entry, and — when the stored string is truthy — adds its length to
the running size and counts it as expired when unparsable or past its
`expires`. Returns (totalEntries, expiredEntries, totalSize). -/
def statsCounts : Store → Int → Nat × Nat × Nat
  | [], _ => (0, 0, 0)
  | (k, c) :: rest, now =>
    let r := statsCounts rest now
    if nsKey k then
      if cellRaw c ≠ "" then
        (r.1 + 1, r.2.1 + (if cellExpired now c then 1 else 0),
         r.2.2 + (cellRaw c).length)
      else (r.1 + 1, r.2.1, r.2.2)
    else r

/-- `getStats()`: assemble the snapshot from the scan; `validEntries` is
computed as `totalEntries - expiredEntries` as in the source, and the
substrate is returned as the loop left it (it only ever reads). The JS
`catch` branch (all-zero stats if the scan itself throws) is
unreachable here because reads do not throw in the model. -/
def getStats (s : Store) (now : Int) : Stats × Store :=
  let r := statsCounts s now
  ({ totalEntries := r.1, expiredEntries := r.2.1,
     validEntries := r.1 - r.2.1, totalSize := r.2.2,
     cacheDurationHours := CACHE_DURATION / (60 * 60 * 1000) }, s)

/-- Specification-side count: the number of bindings the `clearExpired`
sweep removes, i.e. the namespaced entries with a truthy stored string
that the scan classifies as expired or unparsable. -/
def deadCount : Store → Int → Nat
  | [], _ => 0
  | (k, c) :: rest, now =>
    (if sweepDead now k c then 1 else 0) + deadCount rest now

/-- Specification-side count: the number of namespaced bindings. -/
def nsCount : Store → Nat
  | [] => 0
  | (k, _) :: rest => (if nsKey k then 1 else 0) + nsCount rest

/-- Specification-side sum: total length of the truthy namespaced stored
strings, the quantity `getStats` accumulates as `totalSize`. -/
def nsSizeSum : Store → Nat
  | [] => 0
  | (k, c) :: rest =>
    (if nsKey k && decide (cellRaw c ≠ "") then (cellRaw c).length else 0)
      + nsSizeSum rest

end CacheManager

namespace GitHubActivity

/-- One hour in milliseconds (`const oneHour = 60 * 60 * 1000`). -/
def oneHour : Int := 60 * 60 * 1000

/-- Models `new Date(v || 0).getTime()` applied to the cached payload's
`timestamp` field. The writer stores `new Date().toISOString()` there;
we carry that instant as its epoch-millisecond number (`JVal.num`),
which the round trip through `new Date(..).getTime()` recovers exactly.
A missing or falsy field gives `new Date(0).getTime() = 0`. -/
def tsEpoch : JVal → Int
  | .num t => t
  | _ => 0

/-- Gregorian leap-year test, as `Date` uses for UTC dates. -/
def isLeap (y : Int) : Bool :=
  (decide (y % 4 = 0) && decide (y % 100 ≠ 0)) || decide (y % 400 = 0)

/-- Number of days the fallback-calendar loop produces for a year: one
entry per UTC day from `{year}-01-01` through `{year}-12-31`. -/
def daysInYear (y : Int) : Nat := if isLeap y then 366 else 365

/-- Month lengths of year `y`, January first. -/
def monthLens (y : Int) : List Nat :=
  [31, if isLeap y then 29 else 28, 31, 30, 31, 30, 31, 31, 30, 31, 30, 31]

/-- Month (1-based) and day-of-month (1-based) of the `i`-th day
(0-based) of a year with the given month lengths. -/
def monthDayAux : List Nat → Nat → Nat → Nat × Nat
  | [], m, i => (m, i + 1)
  | len :: rest, m, i =>
    if i < len then (m, i + 1) else monthDayAux rest (m + 1) (i - len)

/-- Two-digit zero-padded decimal, as in ISO-8601 date components. -/
def pad2 (n : Nat) : String :=
  if n < 10 then "0" ++ toString n else toString n

/-- The `YYYY-MM-DD` string `d.toISOString().split('T')[0]` produces for
the `i`-th day of year `y`. -/
def dayDate (y : Int) (i : Nat) : String :=
  let md := monthDayAux (monthLens y) 1 i
  toString y ++ "-" ++ pad2 md.1 ++ "-" ++ pad2 md.2

/-- Leap years strictly before year `y` (for positive `y`). -/
def leapsBefore (y : Int) : Int := (y - 1) / 4 - (y - 1) / 100 + (y - 1) / 400

/-- Days from 1970-01-01 to `y`-01-01. -/
def daysFromEpochJan1 (y : Int) : Int :=
  365 * (y - 1970) + (leapsBefore y - leapsBefore 1970)

/-- `d.getUTCDay()` for the `i`-th day of year `y` (0 = Sunday;
1970-01-01 was a Thursday, day 4). -/
def weekdayOf (y : Int) (i : Nat) : Int :=
  (4 + daysFromEpochJan1 y + (i : Int)) % 7

/-- `generateFallbackCalendar(year)`: a zero-filled day entry for every
UTC day of the year, each `{date, count, weekday}`. -/
def generateFallbackCalendar (year : Int) : List JVal :=
  (List.range (daysInYear year)).map (fun i =>
    .obj [("date", .str (dayDate year i)), ("count", .num 0),
          ("weekday", .num (weekdayOf year i))])

/-- The `fallbackTotals` table of the `catch` branch:
`(commits, prs, issues)` for 2023–2025, `(0, 0, 0)` for any other
year. -/
def fallbackTotals (year : Int) : Int × Int × Int :=
  if year = 2025 then (125, 12, 8)
  else if year = 2024 then (289, 28, 19)
  else if year = 2023 then (156, 15, 11)
  else (0, 0, 0)

/-- The synthetic `this.yearData[year]` object built in the `catch`
branch of `fetchYearData` (identical in both component variants;
note it carries no `timestamp` field). -/
def fallbackYearData (year : Int) : JVal :=
  let t := fallbackTotals year
  .obj [("totalCommits", .num t.1), ("totalPRs", .num t.2.1),
        ("totalIssues", .num t.2.2),
        ("calendar", .arr (generateFallbackCalendar year)),
        ("totalContributions", .num (t.1 + t.2.1 + t.2.2))]

/-- The `totalContributions` of the synthetic fallback object:
`commits + prs + issues` from the `fallbackTotals` table. -/
def fallbackTotal (year : Int) : Int :=
  (fallbackTotals year).1 + (fallbackTotals year).2.1 + (fallbackTotals year).2.2

/-- Models `v || 0` followed by numeric use: the field's number when it
is a nonzero number, `0` when it is `0` or falsy. Non-numeric truthy
field values (which the API never sends) are outside the model. -/
def jsNumOr0 : JVal → Int
  | .num n => n
  | _ => 0

/-- `contrib.calendar` normalised by `Array.isArray(..) ? .. : []`. -/
def calendarOrEmpty : JVal → JVal
  | .arr ds => .arr ds
  | _ => .arr []

/-- `calendar.reduce((sum, day) => sum + (day.count || 0), 0)`. -/
def sumCounts (days : List JVal) : Int :=
  days.foldl (fun acc d => acc + jsNumOr0 (d.getField "count")) 0

/-- The `totalContributions` the second variant computes: GitHub's
total when the upstream field is a number, otherwise the calendar sum
(or `0` when the calendar is not an array). The first variant computes
the same value with the two steps in the other order. -/
def totalOf (contrib : JVal) : Int :=
  match contrib.getField "totalContributions" with
  | .num n => n
  | _ =>
    match contrib.getField "calendar" with
    | .arr days => sumCounts days
    | _ => 0

/-- The `this.yearData[year]` object the first variant
(`part_001`/`github-activity.js`) assembles from a successful response:
no `timestamp` field. -/
def mkYearData001 (contrib : JVal) : JVal :=
  .obj [("totalCommits", .num (jsNumOr0 (contrib.getField "totalCommits"))),
        ("totalPRs", .num (jsNumOr0 (contrib.getField "totalPRs"))),
        ("totalIssues", .num (jsNumOr0 (contrib.getField "totalIssues"))),
        ("calendar", calendarOrEmpty (contrib.getField "calendar")),
        ("totalContributions", .num (totalOf contrib))]

/-- The `this.yearData[year]` object the second variant (`part_002`)
assembles from a successful response: as the first variant plus
`timestamp: new Date().toISOString()`, carried as epoch ms (see
`tsEpoch`). -/
def mkYearData002 (contrib : JVal) (now : Int) : JVal :=
  .obj [("totalCommits", .num (jsNumOr0 (contrib.getField "totalCommits"))),
        ("totalPRs", .num (jsNumOr0 (contrib.getField "totalPRs"))),
        ("totalIssues", .num (jsNumOr0 (contrib.getField "totalIssues"))),
        ("calendar", calendarOrEmpty (contrib.getField "calendar")),
        ("totalContributions", .num (totalOf contrib)),
        ("timestamp", .num now)]

/-- Observable outcome of one `fetchYearData(year)` call: the value
assigned to `this.yearData[year]`, whether a network request was issued
(`fetch` reached), and the cache substrate afterwards. -/
structure FetchOutcome where
  yearData : JVal
  networkCalled : Bool
  store : Store

/-- `fetchYearData(year)` of the first component variant
(`src/unnamed/part_001`, also `src/js/github-activity.js` lines
669–720): serve any truthy cached payload as-is; otherwise fetch.
`net = none` models a rejected fetch or non-ok response (thrown before
the payload checks); `net = some payload` the parsed JSON body, which
still falls to the `catch` fallback when it or its `contributions`
field is falsy. `writeThrows` is passed through to `set` (whose return
value the caller ignores). -/
def fetchYearData001 (s : Store) (username : String) (year : Int)
    (now : Int) (net : Option JVal) (writeThrows : Bool) : FetchOutcome :=
  let cacheKey := username ++ "_" ++ toString year
  let r := CacheManager.get s now cacheKey
  if r.1.truthy then
    { yearData := r.1, networkCalled := false, store := r.2 }
  else
    match net with
    | some payload =>
      if payload.truthy && (payload.getField "contributions").truthy then
        let yd := mkYearData001 (payload.getField "contributions")
        let w := CacheManager.set r.2 now writeThrows cacheKey yd
        { yearData := yd, networkCalled := true, store := w.2 }
      else
        { yearData := fallbackYearData year, networkCalled := true, store := r.2 }
    | none =>
      { yearData := fallbackYearData year, networkCalled := true, store := r.2 }

/-- `fetchYearData(year)` of the second component variant
(`src/unnamed/part_002`): a truthy cached payload is served untouched
for a non-current year; for the current year it is served only when
`Date.now() - new Date(cached.timestamp || 0).getTime()` is under one
hour, and otherwise the method falls through to the same fetch/fallback
sequence as the first variant (writing `mkYearData002` on success). -/
def fetchYearData002 (s : Store) (username : String)
    (year currentYear now : Int) (net : Option JVal)
    (writeThrows : Bool) : FetchOutcome :=
  let cacheKey := username ++ "_" ++ toString year
  let r := CacheManager.get s now cacheKey
  let cached := r.1
  if cached.truthy ∧ year ≠ currentYear then
    { yearData := cached, networkCalled := false, store := r.2 }
  else if cached.truthy ∧ year = currentYear ∧
      now - tsEpoch (cached.getField "timestamp") < oneHour then
    { yearData := cached, networkCalled := false, store := r.2 }
  else
    match net with
    | some payload =>
      if payload.truthy && (payload.getField "contributions").truthy then
        let yd := mkYearData002 (payload.getField "contributions") now
        let w := CacheManager.set r.2 now writeThrows cacheKey yd
        { yearData := yd, networkCalled := true, store := w.2 }
      else
        { yearData := fallbackYearData year, networkCalled := true, store := r.2 }
    | none =>
      { yearData := fallbackYearData year, networkCalled := true, store := r.2 }

end GitHubActivity

/-! ## Helper lemmas about the substrate operations -/

section Lemmas

open CacheManager

theorem getItem_setItem_self (s : Store) (k : String) (v : Cell) :
    getItem (setItem s k v) k = some v := by
  induction s with
  | nil => simp [setItem, getItem]
  | cons p rest ih =>
    by_cases h : p.1 = k
    · simp [setItem, getItem, h]
    · simp [setItem, getItem, h, ih]

theorem getItem_setItem_ne (s : Store) (k k' : String) (v : Cell)
    (h : k' ≠ k) : getItem (setItem s k v) k' = getItem s k' := by
  have hk : ¬(k = k') := Ne.symm h
  induction s with
  | nil => simp [setItem, getItem, hk]
  | cons p rest ih =>
    by_cases hp : p.1 = k
    · simp [setItem, getItem, hp, hk, h]
    · simp [setItem, getItem, hp, ih]

theorem getItem_removeItem_self (s : Store) (k : String) :
    getItem (removeItem s k) k = none := by
  induction s with
  | nil => simp [removeItem, getItem]
  | cons p rest ih =>
    by_cases h : p.1 = k
    · simp [removeItem, h, ih]
    · simp [removeItem, getItem, h, ih]

theorem getItem_removeItem_ne (s : Store) (k k' : String) (h : k' ≠ k) :
    getItem (removeItem s k) k' = getItem s k' := by
  have hk : ¬(k = k') := Ne.symm h
  induction s with
  | nil => simp [removeItem]
  | cons p rest ih =>
    by_cases hp : p.1 = k
    · simp [removeItem, getItem, hp, ih, hk]
    · simp [removeItem, getItem, hp, ih]

theorem getItem_clearExpired_alive (s : Store) (now : Int) (key : String)
    (c : Cell) (hfind : getItem s key = some c)
    (halive : sweepDead now key c = false) :
    getItem (clearExpired s now) key = some c := by
  induction s with
  | nil => simp [getItem] at hfind
  | cons p rest ih =>
    by_cases hp : p.1 = key
    · simp [getItem, hp] at hfind
      subst hfind
      simp [clearExpired, getItem, hp, halive]
    · simp [getItem, hp] at hfind
      by_cases hd : sweepDead now p.1 p.2
      · simp [clearExpired, hd, ih hfind]
      · simp [clearExpired, hd, getItem, hp, ih hfind]

theorem getItem_clearExpired_of_none (s : Store) (now : Int) (key : String)
    (hfind : getItem s key = none) :
    getItem (clearExpired s now) key = none := by
  induction s with
  | nil => simp [clearExpired, getItem]
  | cons p rest ih =>
    by_cases hp : p.1 = key
    · simp [getItem, hp] at hfind
    · simp [getItem, hp] at hfind
      by_cases hd : sweepDead now p.1 p.2
      · simp [clearExpired, hd, ih hfind]
      · simp [clearExpired, hd, getItem, hp, ih hfind]

theorem getItem_clearExpired_dead (s : Store) (now : Int) (key : String)
    (c : Cell) (hu : uniqKeys s) (hfind : getItem s key = some c)
    (hdead : sweepDead now key c = true) :
    getItem (clearExpired s now) key = none := by
  induction s with
  | nil => simp [getItem] at hfind
  | cons p rest ih =>
    have hu' : uniqKeys rest := (List.nodup_cons.mp hu).2
    by_cases hp : p.1 = key
    · simp [getItem, hp] at hfind
      subst hfind
      have hnotin : key ∉ rest.map Prod.fst := by
        rw [← hp]; exact (List.nodup_cons.mp hu).1
      have hnone : getItem rest key = none := by
        clear ih hu hu'
        induction rest with
        | nil => simp [getItem]
        | cons q tail ihq =>
          simp only [List.map_cons, List.mem_cons] at hnotin
          push_neg at hnotin
          simp [getItem, Ne.symm hnotin.1, ihq hnotin.2]
      have hd : sweepDead now p.1 p.2 = true := by rw [hp]; exact hdead
      simp [clearExpired, hd, getItem_clearExpired_of_none rest now key hnone]
    · simp [getItem, hp] at hfind
      by_cases hd : sweepDead now p.1 p.2
      · simp [clearExpired, hd, ih hu' hfind]
      · simp [clearExpired, hd, getItem, hp, ih hu' hfind]

theorem getItem_clearExpired_survivor (s : Store) (now : Int) (key : String)
    (c : Cell) (h : getItem (clearExpired s now) key = some c) :
    sweepDead now key c = false := by
  induction s with
  | nil => simp [clearExpired, getItem] at h
  | cons p rest ih =>
    by_cases hd : sweepDead now p.1 p.2
    · rw [clearExpired] at h
      simp only [hd, if_true] at h
      exact ih h
    · rw [clearExpired] at h
      simp only [hd] at h
      by_cases hp : p.1 = key
      · simp [getItem, hp] at h
        subst h
        rw [← hp]
        simpa using hd
      · simp [getItem, hp] at h
        exact ih h

theorem getItem_clearExpired_nonNs (s : Store) (now : Int) (key : String)
    (h : nsKey key = false) :
    getItem (clearExpired s now) key = getItem s key := by
  induction s with
  | nil => simp [clearExpired]
  | cons p rest ih =>
    by_cases hp : p.1 = key
    · have hs : sweepDead now key p.2 = false := by simp [sweepDead, h]
      simp [clearExpired, getItem, hp, hs]
    · by_cases hd : sweepDead now p.1 p.2
      · simp [clearExpired, hd, ih, getItem, hp]
      · simp [clearExpired, hd, ih, getItem, hp]

theorem mem_clearExpired_nonNs (s : Store) (now : Int) (key : String)
    (c : Cell) (h : nsKey key = false) (hmem : (key, c) ∈ s) :
    (key, c) ∈ clearExpired s now := by
  induction s with
  | nil => simp at hmem
  | cons p rest ih =>
    rcases List.mem_cons.mp hmem with heq | htail
    · subst heq
      have : sweepDead now key c = false := by simp [sweepDead, h]
      simp [clearExpired, this]
    · by_cases hd : sweepDead now p.1 p.2
      · simpa [clearExpired, hd] using ih htail
      · simp [clearExpired, hd]
        exact Or.inr (ih htail)

theorem getItem_clearAll_ns (s : Store) (key : String)
    (h : nsKey key = true) : getItem (clearAll s) key = none := by
  induction s with
  | nil => simp [clearAll, getItem]
  | cons p rest ih =>
    by_cases hn : nsKey p.1
    · simp [clearAll, hn, ih]
    · have hp : p.1 ≠ key := fun he => by rw [he] at hn; exact hn h
      simp [clearAll, hn, getItem, hp, ih]

theorem getItem_clearAll_nonNs (s : Store) (key : String)
    (h : nsKey key = false) : getItem (clearAll s) key = getItem s key := by
  induction s with
  | nil => simp [clearAll]
  | cons p rest ih =>
    by_cases hp : p.1 = key
    · simp [clearAll, getItem, hp, h]
    · by_cases hn : nsKey p.1
      · simp [clearAll, hn, ih, getItem, hp]
      · simp [clearAll, hn, ih, getItem, hp]

theorem mem_clearAll_nonNs (s : Store) (key : String) (c : Cell)
    (h : nsKey key = false) (hmem : (key, c) ∈ s) :
    (key, c) ∈ clearAll s := by
  induction s with
  | nil => simp at hmem
  | cons p rest ih =>
    rcases List.mem_cons.mp hmem with heq | htail
    · subst heq
      simp [clearAll, h]
    · by_cases hn : nsKey p.1
      · simpa [clearAll, hn] using ih htail
      · simp [clearAll, hn]
        exact Or.inr (ih htail)

theorem mem_clearAll_ns_false (s : Store) (key : String) (c : Cell)
    (hmem : (key, c) ∈ clearAll s) : nsKey key = false := by
  induction s with
  | nil => simp [clearAll] at hmem
  | cons p rest ih =>
    by_cases hn : nsKey p.1
    · rw [clearAll] at hmem
      simp only [hn, if_true] at hmem
      exact ih hmem
    · rw [clearAll] at hmem
      simp only [hn] at hmem
      rcases List.mem_cons.mp hmem with hheq | htail
      · have hk : key = p.1 := congrArg Prod.fst hheq
        rw [hk]
        simpa using hn
      · exact ih htail

theorem clearExpired_length (s : Store) (now : Int) :
    (clearExpired s now).length + deadCount s now = s.length := by
  induction s with
  | nil => simp [clearExpired, deadCount]
  | cons p rest ih =>
    by_cases hd : sweepDead now p.1 p.2
    · simp [clearExpired, deadCount, hd]
      omega
    · simp [clearExpired, deadCount, hd]
      omega

theorem nsKey_getCacheKey (key : String) : nsKey (getCacheKey key) = true := by
  rw [nsKey, getCacheKey]
  have h : (CACHE_NS ++ key).toList = CACHE_NS.toList ++ key.toList := by
    simp [String.toList]
  rw [h, List.isPrefixOf_iff_prefix]
  exact List.prefix_append _ _

theorem cellRaw_entry_ne (e : Entry) : cellRaw (.entry e) ≠ "" := by
  intro h
  have hlen := congrArg String.length h
  simp only [cellRaw, JVal.stringify, Option.getD_some] at hlen
  rw [String.length_append, String.length_append] at hlen
  have h1 : ("\x7b" : String).length = 1 := rfl
  have h2 : ("\x7d" : String).length = 1 := rfl
  have h0 : ("" : String).length = 0 := rfl
  omega

theorem mem_keys_of_getItem (s : Store) (key : String) (c : Cell)
    (h : getItem s key = some c) : key ∈ s.map Prod.fst := by
  induction s with
  | nil => simp [getItem] at h
  | cons p rest ih =>
    by_cases hp : p.1 = key
    · simp [hp]
    · simp [getItem, hp] at h
      simp [ih h]

theorem getItem_clearExpired_sub (s : Store) (now : Int) (key : String)
    (c : Cell) (hu : uniqKeys s)
    (h : getItem (clearExpired s now) key = some c) :
    getItem s key = some c := by
  induction s with
  | nil => simpa [clearExpired] using h
  | cons p rest ih =>
    have hu' : uniqKeys rest := (List.nodup_cons.mp hu).2
    by_cases hd : sweepDead now p.1 p.2
    · rw [clearExpired] at h
      simp only [hd, if_true] at h
      have hrest := ih hu' h
      by_cases hp : p.1 = key
      · exfalso
        have hin := mem_keys_of_getItem rest key c hrest
        have hu2 : p.1 ∉ rest.map Prod.fst := by
          have hx := hu
          rw [uniqKeys, List.map_cons, List.nodup_cons] at hx
          exact hx.1
        rw [hp] at hu2
        exact hu2 hin
      · simp [getItem, hp, hrest]
    · rw [clearExpired] at h
      simp only [hd] at h
      by_cases hp : p.1 = key
      · simp [getItem, hp] at h ⊢
        exact h
      · simp [getItem, hp] at h ⊢
        exact ih hu' h

theorem get_absent (s : Store) (now : Int) (key : String)
    (h : getItem s (getCacheKey key) = none) :
    get s now key = (.null, s) := by
  simp [CacheManager.get, h]

theorem get_malformed_eq (s : Store) (now : Int) (key raw : String)
    (h : getItem s (getCacheKey key) = some (.malformed raw)) :
    get s now key = (.null, s) := by
  simp [CacheManager.get, h]

theorem get_entry_valid (s : Store) (now : Int) (key : String) (e : Entry)
    (h : getItem s (getCacheKey key) = some (.entry e))
    (hv : entryExpired now e = false) :
    get s now key = (e.data, s) := by
  simp [CacheManager.get, h, hv]

theorem get_entry_expired (s : Store) (now : Int) (key : String) (e : Entry)
    (h : getItem s (getCacheKey key) = some (.entry e))
    (hx : entryExpired now e = true) :
    get s now key = (.null, removeItem s (getCacheKey key)) := by
  simp [CacheManager.get, h, hx]

theorem statsCounts_spec (s : Store) (now : Int) :
    statsCounts s now = (nsCount s, deadCount s now, nsSizeSum s) := by
  induction s with
  | nil => simp [statsCounts, nsCount, deadCount, nsSizeSum]
  | cons p rest ih =>
    obtain ⟨k, c⟩ := p
    by_cases hn : nsKey k
    · by_cases hr : cellRaw c ≠ ""
      · by_cases hx : cellExpired now c
        · simp [statsCounts, nsCount, deadCount, nsSizeSum, sweepDead,
                hn, hr, hx, ih]
          omega
        · simp [statsCounts, nsCount, deadCount, nsSizeSum, sweepDead,
                hn, hr, hx, ih]
          omega
      · simp [statsCounts, nsCount, deadCount, nsSizeSum, sweepDead,
              hn, hr, ih]
        omega
    · simp [statsCounts, nsCount, deadCount, nsSizeSum, sweepDead, hn, ih]

end Lemmas

/-! ## Claim theorems -/

section Claims

open CacheManager GitHubActivity

/-- Claim C1 (confirmed): an entry stored by `set(key, payload)` at time
`t0` carries expiry `t0 + CACHE_DURATION`; `get(key)` at any `t` with
`t ≤` that expiry returns the stored payload, at any `t` past it the
stored key is deleted and `null` (absent) is returned, and `get` on an
absent key always returns `null`. -/
theorem ttl_read_correct (s : Store) (t0 t : Int) (key : String)
    (payload : JVal) :
    ((CacheManager.set s t0 false key payload).1 = true) ∧
    (t ≤ t0 + CACHE_DURATION →
      get (CacheManager.set s t0 false key payload).2 t key
        = (payload, (CacheManager.set s t0 false key payload).2)) ∧
    (t > t0 + CACHE_DURATION →
      (get (CacheManager.set s t0 false key payload).2 t key).1 = .null ∧
      getItem (get (CacheManager.set s t0 false key payload).2 t key).2
        (getCacheKey key) = none) ∧
    (getItem s (getCacheKey key) = none → get s t key = (.null, s)) := by
  have hfind : getItem (CacheManager.set s t0 false key payload).2
      (getCacheKey key)
      = some (.entry ⟨payload, some t0, some (t0 + CACHE_DURATION)⟩) := by
    have hw : (CacheManager.set s t0 false key payload).2
        = setItem s (getCacheKey key)
            (.entry ⟨payload, some t0, some (t0 + CACHE_DURATION)⟩) := by
      simp [CacheManager.set]
    rw [hw]
    exact getItem_setItem_self ..
  refine ⟨by simp [CacheManager.set], ?_, ?_, fun h => get_absent s t key h⟩
  · intro hle
    have hv : entryExpired t ⟨payload, some t0, some (t0 + CACHE_DURATION)⟩
        = false := by
      simp [entryExpired]; omega
    exact get_entry_valid _ _ _ _ hfind hv
  · intro hgt
    have hx : entryExpired t ⟨payload, some t0, some (t0 + CACHE_DURATION)⟩
        = true := by
      simp [entryExpired]; omega
    rw [get_entry_expired _ _ _ _ hfind hx]
    exact ⟨rfl, getItem_removeItem_self ..⟩

/-- Witness for C1 at a concrete input: writing `1` under `"alice"` at
time `0` makes `get` return `1` at `t = 100` and absent at
`t = 21600001` (one millisecond past the six-hour expiry). -/
theorem ttl_read_correct_witness :
    (get (CacheManager.set [] 0 false "alice" (.num 1)).2 100 "alice"
      = (.num 1, (CacheManager.set [] 0 false "alice" (.num 1)).2)) ∧
    ((get (CacheManager.set [] 0 false "alice" (.num 1)).2 21600001 "alice").1 = .null) := by
  refine ⟨(ttl_read_correct [] 0 100 "alice" (.num 1)).2.1 (by norm_num [CACHE_DURATION]),
    ((ttl_read_correct [] 0 21600001 "alice" (.num 1)).2.2.1
      (by norm_num [CACHE_DURATION])).1⟩

/-- Claim C2 counterexample: with a still-valid entry for `"alice"`
already in the store, a write whose underlying `setItem` throws returns
`false`, but the subsequent `get("alice")` returns the old payload
`1` — not absent, contradicting the claim's unconditional "a subsequent
get(key) returns absent". -/
theorem set_failure_stale_read_cex :
    ((CacheManager.set [(getCacheKey "alice", .entry ⟨.num 1, some 0, some 1000⟩)]
        500 true "alice" (.num 2)).1 = false) ∧
    ((get (CacheManager.set [(getCacheKey "alice", .entry ⟨.num 1, some 0, some 1000⟩)]
        500 true "alice" (.num 2)).2 500 "alice").1 = .num 1) ∧
    JVal.num 1 ≠ JVal.null := by
  refine ⟨rfl, rfl, fun h => by cases h⟩

/-- Claim C2 (corrected): when the underlying write throws, `set`
returns `false` without propagating and runs the expired-entry sweep;
provided the key had no valid pre-existing entry (absent, unparsable,
or already expired), a subsequent `get` at any time returns absent. A
successful write returns `true`. -/
theorem set_failure_graceful (s : Store) (now t : Int) (key : String)
    (d : JVal) (hu : uniqKeys s)
    (hstale : ∀ e, getItem s (getCacheKey key) = some (.entry e) →
      entryExpired now e = true) :
    ((CacheManager.set s now true key d).1 = false) ∧
    ((CacheManager.set s now true key d).2 = clearExpired s now) ∧
    ((get (CacheManager.set s now true key d).2 t key).1 = .null) ∧
    ((CacheManager.set s now false key d).1 = true) := by
  refine ⟨by simp [CacheManager.set], by simp [CacheManager.set], ?_, by simp [CacheManager.set]⟩
  have hs2 : (CacheManager.set s now true key d).2 = clearExpired s now := by simp [CacheManager.set]
  rw [hs2]
  rcases hsw : getItem (clearExpired s now) (getCacheKey key) with _ | c
  · rw [get_absent _ _ _ hsw]
  · rcases c with raw | e
    · rw [get_malformed_eq _ _ _ _ hsw]
    · exfalso
      have horig := getItem_clearExpired_sub s now _ _ hu hsw
      have hdead : sweepDead now (getCacheKey key) (.entry e) = true := by
        simp [sweepDead, nsKey_getCacheKey, cellRaw_entry_ne, cellExpired,
          hstale e horig]
      have := getItem_clearExpired_dead s now _ _ hu horig hdead
      rw [this] at hsw
      cases hsw

/-- Witness for C2 (corrected) at a concrete input: the store holds an
already-expired entry for `"bob"`; the failing write returns `false` and
the subsequent `get` is absent, while a successful write returns
`true`. -/
theorem set_failure_graceful_witness :
    ((CacheManager.set [(getCacheKey "bob", .entry ⟨.num 9, some 0, some 10⟩)]
        500 true "bob" (.num 2)).1 = false) ∧
    ((get (CacheManager.set [(getCacheKey "bob", .entry ⟨.num 9, some 0, some 10⟩)]
        500 true "bob" (.num 2)).2 777 "bob").1 = .null) ∧
    ((CacheManager.set [(getCacheKey "bob", .entry ⟨.num 9, some 0, some 10⟩)]
        500 false "bob" (.num 2)).1 = true) := by
  have h := set_failure_graceful
    [(getCacheKey "bob", .entry ⟨.num 9, some 0, some 10⟩)] 500 777 "bob"
    (.num 2) (by decide)
    (by intro e he; cases he; decide)
  exact ⟨h.1, h.2.2.1, h.2.2.2⟩

/-- Claim C3 counterexample: on a store holding exactly one expired
namespaced entry (`M = 1`), the call to `clearExpired()` hands its
caller `undefined` (`none`), not the removal count `1` the claim
requires. -/
theorem clearExpired_returns_no_count_cex :
    ((clearExpiredCall [(getCacheKey "a", .entry ⟨.num 1, some 0, some 10⟩)]
        11).1 = none) ∧
    (deadCount [(getCacheKey "a", .entry ⟨.num 1, some 0, some 10⟩)] 11 = 1) ∧
    (none : Option Nat) ≠ some 1 := by
  refine ⟨rfl, by decide, fun h => by cases h⟩

/-- Claim C3 (corrected): `clearExpired()` removes exactly the `M`
namespaced bindings whose (nonempty) stored value is expired or fails
to parse — the store shrinks by `M`, every surviving binding is one the
sweep classifies as live, every swept binding is gone — and each valid
entry remains readable by `get` afterwards; but the function returns no
count (its JS body has no return statement, so the caller receives
`undefined`). -/
theorem clearExpired_sweeps_exactly (s : Store) (now : Int)
    (hu : uniqKeys s) :
    ((clearExpiredCall s now).1 = none) ∧
    ((clearExpired s now).length + deadCount s now = s.length) ∧
    (∀ key c, getItem (clearExpired s now) key = some c →
      sweepDead now key c = false) ∧
    (∀ key c, getItem s key = some c → sweepDead now key c = true →
      getItem (clearExpired s now) key = none) ∧
    (∀ key e, getItem s (getCacheKey key) = some (.entry e) →
      entryExpired now e = false →
      get (clearExpired s now) now key = (e.data, clearExpired s now)) := by
  refine ⟨rfl, clearExpired_length s now,
    fun key c h => getItem_clearExpired_survivor s now key c h,
    fun key c h hd => getItem_clearExpired_dead s now key c hu h hd,
    fun key e h hv => ?_⟩
  have halive : sweepDead now (getCacheKey key) (.entry e) = false := by
    simp [sweepDead, cellExpired, hv]
  have hkeep := getItem_clearExpired_alive s now _ _ h halive
  exact get_entry_valid _ _ _ _ hkeep hv

/-- Witness for C3 (corrected) at a concrete input: a store with one
expired entry, one valid entry and one foreign key; the sweep removes
exactly one binding, returns `undefined`, and the valid entry is still
readable. -/
theorem clearExpired_sweeps_exactly_witness :
    ((clearExpiredCall
        [(getCacheKey "old", .entry ⟨.num 1, some 0, some 10⟩),
         (getCacheKey "new", .entry ⟨.num 2, some 0, some 99999⟩),
         ("theme", .malformed "dark")] 11).1 = none) ∧
    ((clearExpired
        [(getCacheKey "old", .entry ⟨.num 1, some 0, some 10⟩),
         (getCacheKey "new", .entry ⟨.num 2, some 0, some 99999⟩),
         ("theme", .malformed "dark")] 11).length
      + deadCount
        [(getCacheKey "old", .entry ⟨.num 1, some 0, some 10⟩),
         (getCacheKey "new", .entry ⟨.num 2, some 0, some 99999⟩),
         ("theme", .malformed "dark")] 11 = 3) ∧
    (get (clearExpired
        [(getCacheKey "old", .entry ⟨.num 1, some 0, some 10⟩),
         (getCacheKey "new", .entry ⟨.num 2, some 0, some 99999⟩),
         ("theme", .malformed "dark")] 11) 11 "new"
      = (.num 2, clearExpired
        [(getCacheKey "old", .entry ⟨.num 1, some 0, some 10⟩),
         (getCacheKey "new", .entry ⟨.num 2, some 0, some 99999⟩),
         ("theme", .malformed "dark")] 11)) := by
  have h := clearExpired_sweeps_exactly
    [(getCacheKey "old", .entry ⟨.num 1, some 0, some 10⟩),
     (getCacheKey "new", .entry ⟨.num 2, some 0, some 99999⟩),
     ("theme", .malformed "dark")] 11 (by decide)
  exact ⟨h.1, h.2.1, h.2.2.2.2 "new" ⟨.num 2, some 0, some 99999⟩ rfl (by decide)⟩

/-- Claim C4 counterexample: `get` on a key whose stored value is
unparsable returns absent but leaves the substrate — including that
very entry — unchanged, contradicting the claim that the entry is
deleted exactly as an expired one would be. -/
theorem get_malformed_no_delete_cex :
    (get [(getCacheKey "bad", .malformed "not json")] 5 "bad"
      = (.null, [(getCacheKey "bad", .malformed "not json")])) ∧
    (getItem [(getCacheKey "bad", .malformed "not json")]
      (getCacheKey "bad") = some (.malformed "not json")) := ⟨rfl, rfl⟩

/-- Claim C4 (corrected): `get` on an unparsable stored value returns
absent (`null`) but, unlike the expired case, does not delete it — the
`catch` only logs; the (nonempty) unparsable entry is reclaimed only by
the `clearExpired` sweep. -/
theorem get_malformed_graceful (s : Store) (now : Int) (key raw : String)
    (h : getItem s (getCacheKey key) = some (.malformed raw)) :
    (get s now key = (.null, s)) ∧
    (raw ≠ "" → uniqKeys s →
      getItem (clearExpired s now) (getCacheKey key) = none) := by
  refine ⟨get_malformed_eq s now key raw h, fun hraw hu => ?_⟩
  apply getItem_clearExpired_dead s now _ _ hu h
  simp [sweepDead, nsKey_getCacheKey, cellExpired, cellRaw, hraw]

/-- Witness for C4 (corrected) at a concrete input. -/
theorem get_malformed_graceful_witness :
    (get [(getCacheKey "bad", .malformed "oops")] 5 "bad"
      = (.null, [(getCacheKey "bad", .malformed "oops")])) ∧
    (getItem (clearExpired [(getCacheKey "bad", .malformed "oops")] 5)
      (getCacheKey "bad") = none) := by
  have h := get_malformed_graceful [(getCacheKey "bad", .malformed "oops")]
    5 "bad" "oops" rfl
  exact ⟨h.1, h.2 (by decide) (by decide)⟩

/-- Claim C5 counterexample: for the identifier of year 2026 (the
current year) with no cache entry and a failed fetch, the synthetic
fallback's statistics are all zero — the `fallbackTotals` table only
has rows for 2023–2025 — contradicting the claim's "non-zero
statistics" for every identifier. -/
theorem fallback_zero_stats_cex :
    ((fetchYearData002 [] "kevinnngoo" 2026 2026 0 none false).yearData.getField
      "totalContributions" = .num 0) ∧
    ((fetchYearData002 [] "kevinnngoo" 2026 2026 0 none false).yearData.getField
      "totalCommits" = .num 0) ∧
    ((JVal.num 0).truthy = false) := ⟨rfl, rfl, rfl⟩

/-- Claim C5 (corrected): on a fetch failure with no pre-existing cache
entry, both `fetchYearData` variants produce a non-null synthetic
object with a fully populated (zero-filled) calendar — with statistics
that are non-zero exactly for the tabulated years 2023–2025 and zero
otherwise — and write nothing: the substrate is returned unchanged and
a direct `get` for that identifier still returns absent. -/
theorem fallback_not_persisted (s : Store) (username : String)
    (year currentYear now t : Int) (wt : Bool)
    (habs : getItem s (getCacheKey (username ++ "_" ++ toString year)) = none) :
    (fetchYearData001 s username year now none wt
      = { yearData := fallbackYearData year, networkCalled := true,
          store := s }) ∧
    (fetchYearData002 s username year currentYear now none wt
      = { yearData := fallbackYearData year, networkCalled := true,
          store := s }) ∧
    (get s t (username ++ "_" ++ toString year) = (.null, s)) ∧
    ((fallbackYearData year).truthy = true) ∧
    ((fallbackYearData year).getField "calendar"
      = .arr (generateFallbackCalendar year)) ∧
    ((generateFallbackCalendar year).length = daysInYear year) ∧
    (0 < daysInYear year) ∧
    ((fallbackYearData year).getField "totalContributions"
      = .num (fallbackTotal year)) ∧
    (fallbackTotal year ≠ 0 ↔ year = 2023 ∨ year = 2024 ∨ year = 2025) := by
  have hget : get s now (username ++ "_" ++ toString year) = (.null, s) :=
    get_absent _ _ _ habs
  refine ⟨?_, ?_, get_absent _ _ _ habs, by simp [fallbackYearData, JVal.truthy],
    rfl, by simp [generateFallbackCalendar], ?_, rfl, ?_⟩
  · simp [fetchYearData001, hget, JVal.truthy]
  · simp [fetchYearData002, hget, JVal.truthy]
  · by_cases hl : isLeap year <;> simp [daysInYear, hl]
  · by_cases h25 : year = 2025
    · subst h25; decide
    · by_cases h24 : year = 2024
      · subst h24; decide
      · by_cases h23 : year = 2023
        · subst h23; decide
        · simp [fallbackTotal, fallbackTotals, h23, h24, h25]

/-- Witness for C5 (corrected) at a concrete input: year 2024, empty
substrate, failed fetch. -/
theorem fallback_not_persisted_witness :
    (fetchYearData001 [] "kevinnngoo" 2024 0 none false
      = { yearData := fallbackYearData 2024, networkCalled := true,
          store := [] }) ∧
    (get [] 5 "kevinnngoo_2024" = (.null, [])) ∧
    (fallbackTotal 2024 ≠ 0) := by
  have h := fallback_not_persisted [] "kevinnngoo" 2024 2026 0 5 false rfl
  exact ⟨h.1, h.2.2.1, h.2.2.2.2.2.2.2.2.mpr (Or.inr (Or.inl rfl))⟩

/-- Claim C6 (confirmed): given an entry that is valid under the
store's own six-hour TTL and carries a truthy payload whose `timestamp`
resolves to `ts`: for the current-year identifier the orchestrator
fetches from the network when the entry is more than one hour old and
serves the cached payload untouched (no network call, substrate
unchanged) when it is less than one hour old; for any other year the
cached payload is served untouched regardless of its age, the store's
TTL being the only limit. -/
theorem current_year_stale_override (s : Store) (username : String)
    (year currentYear now exp ts : Int) (e : Entry) (net : Option JVal)
    (wt : Bool)
    (hfind : getItem s (getCacheKey (username ++ "_" ++ toString year))
      = some (.entry e))
    (hexp : e.expires = some exp) (hvalid : now ≤ exp)
    (htruthy : e.data.truthy = true)
    (hts : tsEpoch (e.data.getField "timestamp") = ts) :
    (year = currentYear → now - ts > oneHour →
      (fetchYearData002 s username year currentYear now net wt).networkCalled
        = true) ∧
    (year = currentYear → now - ts < oneHour →
      fetchYearData002 s username year currentYear now net wt
        = { yearData := e.data, networkCalled := false, store := s }) ∧
    (year ≠ currentYear →
      fetchYearData002 s username year currentYear now net wt
        = { yearData := e.data, networkCalled := false, store := s }) := by
  have hget : get s now (username ++ "_" ++ toString year) = (e.data, s) :=
    get_entry_valid _ _ _ _ hfind (by simp [entryExpired, hexp]; omega)
  refine ⟨fun hcur hstale => ?_, fun hcur hfresh => ?_, fun hne => ?_⟩
  · subst hcur
    have hlt : ¬(now - tsEpoch (e.data.getField "timestamp") < oneHour) := by
      rw [hts]; omega
    rcases net with _ | payload
    · simp [fetchYearData002, hget, htruthy, hlt]
    · by_cases hp : (payload.truthy
          && (payload.getField "contributions").truthy) = true
      · simp [fetchYearData002, hget, htruthy, hlt, hp]
      · simp [fetchYearData002, hget, htruthy, hlt, hp]
  · subst hcur
    have hlt : now - tsEpoch (e.data.getField "timestamp") < oneHour := by
      rw [hts]; omega
    simp [fetchYearData002, hget, htruthy, hlt]
  · simp [fetchYearData002, hget, htruthy, hne]

/-- Witness for C6 at concrete inputs: a valid current-year (2026)
entry written two hours ago triggers a network call; the same entry
thirty minutes old is served without one; a 2024 entry two hours old is
served without one. -/
theorem current_year_stale_override_witness :
    ((fetchYearData002
        [(getCacheKey "kevinnngoo_2026",
          .entry ⟨.obj [("timestamp", .num 0)], some 0, some 21600000⟩)]
        "kevinnngoo" 2026 2026 7200000 none false).networkCalled = true) ∧
    (fetchYearData002
        [(getCacheKey "kevinnngoo_2026",
          .entry ⟨.obj [("timestamp", .num 0)], some 0, some 21600000⟩)]
        "kevinnngoo" 2026 2026 1800000 none false
      = { yearData := .obj [("timestamp", .num 0)], networkCalled := false,
          store := [(getCacheKey "kevinnngoo_2026",
            .entry ⟨.obj [("timestamp", .num 0)], some 0, some 21600000⟩)] }) ∧
    (fetchYearData002
        [(getCacheKey "kevinnngoo_2024",
          .entry ⟨.obj [("timestamp", .num 0)], some 0, some 21600000⟩)]
        "kevinnngoo" 2024 2026 7200000 none false
      = { yearData := .obj [("timestamp", .num 0)], networkCalled := false,
          store := [(getCacheKey "kevinnngoo_2024",
            .entry ⟨.obj [("timestamp", .num 0)], some 0, some 21600000⟩)] }) := by
  refine ⟨(current_year_stale_override
      [(getCacheKey "kevinnngoo_2026",
        .entry ⟨.obj [("timestamp", .num 0)], some 0, some 21600000⟩)]
      "kevinnngoo" 2026 2026 7200000
      21600000 0 ⟨.obj [("timestamp", .num 0)], some 0, some 21600000⟩
      none false (by rfl) rfl (by norm_num) rfl rfl).1 rfl
      (by norm_num [oneHour]),
    (current_year_stale_override
      [(getCacheKey "kevinnngoo_2026",
        .entry ⟨.obj [("timestamp", .num 0)], some 0, some 21600000⟩)]
      "kevinnngoo" 2026 2026 1800000
      21600000 0 ⟨.obj [("timestamp", .num 0)], some 0, some 21600000⟩
      none false (by rfl) rfl (by norm_num) rfl rfl).2.1 rfl
      (by norm_num [oneHour]),
    (current_year_stale_override
      [(getCacheKey "kevinnngoo_2024",
        .entry ⟨.obj [("timestamp", .num 0)], some 0, some 21600000⟩)]
      "kevinnngoo" 2024 2026 7200000
      21600000 0 ⟨.obj [("timestamp", .num 0)], some 0, some 21600000⟩
      none false (by rfl) rfl (by norm_num) rfl rfl).2.2 (by norm_num)⟩

/-- Claim C7 counterexample: with a valid cached entry for the 2024
identifier and a network that would answer successfully, the
orchestrator issues no request at all and leaves the cache entry
untouched — there is no background (fire-and-forget) refresh to
overwrite it. -/
theorem cache_hit_no_refresh_cex :
    ((fetchYearData002
        [(getCacheKey "kevinnngoo_2024",
          .entry ⟨.obj [("totalCommits", .num 7)], some 0, some 21600000⟩)]
        "kevinnngoo" 2024 2026 1000
        (some (.obj [("contributions", .obj [("totalCommits", .num 9)])]))
        false).networkCalled = false) ∧
    ((fetchYearData002
        [(getCacheKey "kevinnngoo_2024",
          .entry ⟨.obj [("totalCommits", .num 7)], some 0, some 21600000⟩)]
        "kevinnngoo" 2024 2026 1000
        (some (.obj [("contributions", .obj [("totalCommits", .num 9)])]))
        false).store
      = [(getCacheKey "kevinnngoo_2024",
          .entry ⟨.obj [("totalCommits", .num 7)], some 0, some 21600000⟩)]) :=
  ⟨rfl, rfl⟩

/-- Claim C7 (corrected): on a valid, truthy cache hit the orchestrator
serves the cached payload and issues no network request whatsoever —
no background refresh exists in the code, so the cache entry is never
overwritten on a hit. In the first variant this holds for every hit; in
the second it holds for every non-current-year hit and for current-year
hits fresher than one hour (older ones go through a foreground
fetch). -/
theorem cache_hit_serves_without_refresh (s : Store) (username : String)
    (year currentYear now exp : Int) (e : Entry) (net : Option JVal)
    (wt : Bool)
    (hfind : getItem s (getCacheKey (username ++ "_" ++ toString year))
      = some (.entry e))
    (hexp : e.expires = some exp) (hvalid : now ≤ exp)
    (htruthy : e.data.truthy = true) :
    (fetchYearData001 s username year now net wt
      = { yearData := e.data, networkCalled := false, store := s }) ∧
    (year ≠ currentYear →
      fetchYearData002 s username year currentYear now net wt
        = { yearData := e.data, networkCalled := false, store := s }) ∧
    (year = currentYear →
      now - tsEpoch (e.data.getField "timestamp") < oneHour →
      fetchYearData002 s username year currentYear now net wt
        = { yearData := e.data, networkCalled := false, store := s }) := by
  have hget : get s now (username ++ "_" ++ toString year) = (e.data, s) :=
    get_entry_valid _ _ _ _ hfind (by simp [entryExpired, hexp]; omega)
  refine ⟨by simp [fetchYearData001, hget, htruthy], fun hne => ?_,
    fun hcur hfresh => ?_⟩
  · simp [fetchYearData002, hget, htruthy, hne]
  · subst hcur
    simp [fetchYearData002, hget, htruthy, hfresh]

/-- Witness for C7 (corrected) at a concrete input: a fresh valid 2024
entry is served by both variants without any network call. -/
theorem cache_hit_serves_without_refresh_witness :
    (fetchYearData001
        [(getCacheKey "kevinnngoo_2024",
          .entry ⟨.obj [("totalPRs", .num 3)], some 0, some 21600000⟩)]
        "kevinnngoo" 2024 1000 none false
      = { yearData := .obj [("totalPRs", .num 3)], networkCalled := false,
          store := [(getCacheKey "kevinnngoo_2024",
            .entry ⟨.obj [("totalPRs", .num 3)], some 0, some 21600000⟩)] }) ∧
    (fetchYearData002
        [(getCacheKey "kevinnngoo_2024",
          .entry ⟨.obj [("totalPRs", .num 3)], some 0, some 21600000⟩)]
        "kevinnngoo" 2024 2026 1000 none false
      = { yearData := .obj [("totalPRs", .num 3)], networkCalled := false,
          store := [(getCacheKey "kevinnngoo_2024",
            .entry ⟨.obj [("totalPRs", .num 3)], some 0, some 21600000⟩)] }) := by
  have h := cache_hit_serves_without_refresh
    [(getCacheKey "kevinnngoo_2024",
      .entry ⟨.obj [("totalPRs", .num 3)], some 0, some 21600000⟩)]
    "kevinnngoo" 2024 2026 1000 21600000
    ⟨.obj [("totalPRs", .num 3)], some 0, some 21600000⟩ none false
    rfl rfl (by norm_num) rfl
  exact ⟨h.1, h.2.1 (by norm_num)⟩

/-- Claim C8 (confirmed): neither `clearAll()` nor `clearExpired()`
touches a key outside the cache's namespace — such a binding keeps its
exact value and membership — and any binding either operation removes
is a namespaced one. -/
theorem namespace_isolation (s : Store) (now : Int) (key : String)
    (c : Cell) (h : nsKey key = false) :
    (getItem (clearAll s) key = getItem s key) ∧
    (getItem (clearExpired s now) key = getItem s key) ∧
    ((key, c) ∈ s → (key, c) ∈ clearAll s) ∧
    ((key, c) ∈ s → (key, c) ∈ clearExpired s now) ∧
    (∀ k2 c2, (k2, c2) ∈ s → (k2, c2) ∉ clearAll s → nsKey k2 = true) ∧
    (∀ k2 c2, (k2, c2) ∈ s → (k2, c2) ∉ clearExpired s now →
      nsKey k2 = true) := by
  refine ⟨getItem_clearAll_nonNs s key h, getItem_clearExpired_nonNs s now key h,
    fun hm => mem_clearAll_nonNs s key c h hm,
    fun hm => mem_clearExpired_nonNs s now key c h hm,
    fun k2 c2 hm hnm => ?_, fun k2 c2 hm hnm => ?_⟩
  · by_contra hns
    exact hnm (mem_clearAll_nonNs s k2 c2 (by simpa using hns) hm)
  · by_contra hns
    exact hnm (mem_clearExpired_nonNs s now k2 c2 (by simpa using hns) hm)

/-- Witness for C8 at a concrete input: an unrelated `"theme"` key
survives both sweeps with its value intact while the expired namespaced
entry is removed. -/
theorem namespace_isolation_witness :
    (getItem (clearAll
        [(getCacheKey "u_2024", .entry ⟨.num 1, some 0, some 10⟩),
         ("theme", .malformed "dark")]) "theme" = some (.malformed "dark")) ∧
    (getItem (clearExpired
        [(getCacheKey "u_2024", .entry ⟨.num 1, some 0, some 10⟩),
         ("theme", .malformed "dark")] 99) "theme"
      = some (.malformed "dark")) := by
  have h := namespace_isolation
    [(getCacheKey "u_2024", .entry ⟨.num 1, some 0, some 10⟩),
     ("theme", .malformed "dark")] 99 "theme" (.malformed "dark") (by decide)
  exact ⟨by rw [h.1]; rfl, by rw [h.2.1]; rfl⟩

/-- Claim C9 (confirmed): `getStats()` leaves the substrate exactly as
it found it (the scan only reads; expired and malformed entries are
counted, not removed), and the returned snapshot satisfies
`validEntries = totalEntries - expiredEntries`, with `totalEntries`
the number of namespaced bindings and `expiredEntries` the number of
those whose truthy stored value is expired or unparsable. -/
theorem getStats_pure_and_consistent (s : Store) (now : Int) :
    ((getStats s now).2 = s) ∧
    ((getStats s now).1.validEntries
      = (getStats s now).1.totalEntries - (getStats s now).1.expiredEntries) ∧
    ((getStats s now).1.totalEntries = nsCount s) ∧
    ((getStats s now).1.expiredEntries = deadCount s now) := by
  refine ⟨rfl, ?_, ?_, ?_⟩ <;> simp [getStats, statsCounts_spec]

/-- Claim C10 (confirmed): an entry that parses but has no numeric
`expires` field is permanently valid: `get` returns its `data` payload
at every time without touching the store, no scan ever classifies it
as expired, `clearExpired` always keeps it, and only `remove` or
`clearAll` delete it. -/
theorem missing_expires_never_expires (s : Store) (key : String) (e : Entry)
    (hfind : getItem s (getCacheKey key) = some (.entry e))
    (hexp : e.expires = none) :
    (∀ t, get s t key = (e.data, s)) ∧
    (∀ t, entryExpired t e = false) ∧
    (∀ t, cellExpired t (.entry e) = false) ∧
    (∀ t, getItem (clearExpired s t) (getCacheKey key) = some (.entry e)) ∧
    (getItem (clearAll s) (getCacheKey key) = none) ∧
    (getItem (CacheManager.remove s key) (getCacheKey key) = none) := by
  have hne : ∀ t, entryExpired t e = false := fun t => by
    simp [entryExpired, hexp]
  refine ⟨fun t => get_entry_valid _ _ _ _ hfind (hne t), hne,
    fun t => by simp [cellExpired, hne t], fun t => ?_,
    getItem_clearAll_ns s _ (nsKey_getCacheKey key),
    getItem_removeItem_self ..⟩
  exact getItem_clearExpired_alive s t _ _ hfind
    (by simp [sweepDead, cellExpired, hne t])

/-- Witness for C10 at a concrete input: an entry stored without an
`expires` field is still read back far in the future and survives the
sweep. -/
theorem missing_expires_never_expires_witness :
    (get [(getCacheKey "forever", .entry ⟨.num 7, some 0, none⟩)]
        999999999999 "forever"
      = (.num 7, [(getCacheKey "forever", .entry ⟨.num 7, some 0, none⟩)])) ∧
    (getItem (clearExpired
        [(getCacheKey "forever", .entry ⟨.num 7, some 0, none⟩)]
        999999999999) (getCacheKey "forever")
      = some (.entry ⟨.num 7, some 0, none⟩)) := by
  have h := missing_expires_never_expires
    [(getCacheKey "forever", .entry ⟨.num 7, some 0, none⟩)]
    "forever" ⟨.num 7, some 0, none⟩ rfl rfl
  exact ⟨h.1 999999999999, h.2.2.2.1 999999999999⟩

end Claims

end KevinNgoSite
